import Mathlib

/-!
# Verification of the swissdata commune-registry loader

A shallow embedding, in Lean 4, of the core of the `rust-swissdata` crate:

* the `DD.MM.YYYY` date (de)serializers of `src/tools/internal/serde.rs`
  (chrono `parse_from_str` / `format` with the `"%d.%m.%Y"` pattern);
* the enumerations, record types and per-row decoding of
  `src/fso/communes.rs` (serde/csv deserialization of tab-delimited rows);
* the archive member-name map and member lookup of `Datastore::load`;
* the cache-freshness test and `cache_get` of the `Downloader` trait in
  `src/tools.rs`, with the filesystem and network modelled as explicit state.

Machine integers are modelled as `Nat` with the source's bounds enforced at
the parsing boundary; fallible operations return `Option` or `Except`;
strings are modelled as `List Char`.
-/

deriving instance DecidableEq for Except

namespace Swissdata

/-! ## Character and digit utilities -/

/-- ASCII digit test, as on `char::is_ascii_digit` (code points 48–57). -/
def isDigitC (c : Char) : Bool := 48 ≤ c.toNat && c.toNat ≤ 57

/-- Numeric value of an ASCII digit character. -/
def dVal (c : Char) : Nat := c.toNat - 48

/-- ASCII digit character for a value `n < 10`. -/
def dChar (n : Nat) : Char := Char.ofNat (48 + n)

/-- Whitespace test used by chrono's numeric-field parsing (`trim_start`).
Restricted to the ASCII whitespace characters, which are the only ones the
data format can contain. -/
def isWs (c : Char) : Bool :=
  c.toNat == 32 || c.toNat == 9 || c.toNat == 10 || c.toNat == 11 ||
  c.toNat == 12 || c.toNat == 13

/-- Decimal digits of `n`, most significant first (fuel-indexed helper). -/
def natDigitsFuel : Nat → Nat → List Char → List Char
  | 0, _, acc => acc
  | fuel + 1, n, acc =>
    if n = 0 then acc else natDigitsFuel fuel (n / 10) (dChar (n % 10) :: acc)

/-- Decimal representation of a natural number. -/
def natDigits (n : Nat) : List Char :=
  if n = 0 then ['0'] else natDigitsFuel (n + 1) n []

/-- Format a number zero-padded to width 2 (chrono `Pad::Zero`, width 2). -/
def fmt2 (n : Nat) : List Char :=
  if n < 100 then [dChar (n / 10), dChar (n % 10)] else natDigits n

/-- Format a number zero-padded to width 4 (chrono `Pad::Zero`, width 4). -/
def fmt4 (n : Nat) : List Char :=
  if n < 10000 then
    [dChar (n / 1000), dChar (n / 100 % 10), dChar (n / 10 % 10), dChar (n % 10)]
  else natDigits n

/-! ## The chrono `%d.%m.%Y` date model

`src/tools/internal/serde.rs` parses and prints dates with chrono's
`parse_from_str` / `format` and the fixed pattern `"%d.%m.%Y"`.  The items of
that pattern are `Numeric(Day)`, `Literal(".")`, `Numeric(Month)`,
`Literal(".")`, `Numeric(Year)`.  chrono's numeric parsing first skips
leading whitespace, then reads at least one and at most `width` digits
(width 2 for day and month, width 4 for an unsigned year; a year introduced
by `+`/`-` may have arbitrarily many digits).  `parse_from_str` demands the
whole input be consumed, and `Parsed::to_naive_date` validates the
year/month/day triple against the proleptic Gregorian calendar and chrono's
year range. -/

/-- A calendar date as chrono's `NaiveDate` holds it. -/
structure SDate where
  year : Int
  month : Nat
  day : Nat
deriving DecidableEq, Repr

/-- Consume up to `max` further digits, accumulating their value
(chrono `scan::number`'s loop). -/
def scanDigits : Nat → Nat → List Char → Nat × List Char
  | 0, acc, cs => (acc, cs)
  | _ + 1, acc, [] => (acc, [])
  | max + 1, acc, c :: cs =>
    if isDigitC c then scanDigits max (10 * acc + dVal c) cs else (acc, c :: cs)

/-- Consume between 1 and `max` digits (chrono `scan::number(s, 1, max)`). -/
def scanNumber (max : Nat) : List Char → Option (Nat × List Char)
  | [] => none
  | c :: cs =>
    if isDigitC c then some (scanDigits (max - 1) (dVal c) cs) else none

/-- Match the literal `'.'` of the pattern. -/
def expectDot : List Char → Option (List Char)
  | c :: cs => if c = '.' then some cs else none
  | [] => none

/-- Parse the year field: unsigned years are limited to 4 digits, a leading
`-` or `+` lifts that limit (chrono's signed-numeric parsing). -/
def scanYear (cs : List Char) : Option (Int × List Char) :=
  match cs with
  | [] => none
  | c :: rest =>
    if c = '-' then (scanNumber rest.length rest).map fun p => (-(p.1 : Int), p.2)
    else if c = '+' then (scanNumber rest.length rest).map fun p => ((p.1 : Int), p.2)
    else (scanNumber 4 (c :: rest)).map fun p => ((p.1 : Int), p.2)

/-- Proleptic Gregorian leap-year rule, as in chrono. -/
def isLeapYear (y : Int) : Bool :=
  y % 4 == 0 && (y % 100 != 0 || y % 400 == 0)

/-- Days in month `m` of year `y` (0 for an invalid month number). -/
def daysInMonth (y : Int) (m : Nat) : Nat :=
  match m with
  | 1 => 31 | 2 => if isLeapYear y then 29 else 28
  | 3 => 31 | 4 => 30 | 5 => 31 | 6 => 30 | 7 => 31
  | 8 => 31 | 9 => 30 | 10 => 31 | 11 => 30 | 12 => 31
  | _ => 0

/-- chrono `NaiveDate::from_ymd_opt`: calendar validity plus the year range
of the packed `i32` representation. -/
def fromYmd (y : Int) (m d : Nat) : Option SDate :=
  if -262144 ≤ y ∧ y ≤ 262143 ∧ 1 ≤ m ∧ m ≤ 12 ∧ 1 ≤ d ∧ d ≤ daysInMonth y m then
    some ⟨y, m, d⟩
  else none

/-- chrono `NaiveDate::parse_from_str(s, "%d.%m.%Y")`. -/
def parseDate (cs : List Char) : Option SDate := do
  let (d, r1) ← scanNumber 2 (cs.dropWhile isWs)
  let r2 ← expectDot r1
  let (m, r3) ← scanNumber 2 (r2.dropWhile isWs)
  let r4 ← expectDot r3
  let (y, r5) ← scanYear (r4.dropWhile isWs)
  if r5.isEmpty then fromYmd y m d else none

/-- chrono's `%Y` formatting: zero-padded to 4 digits, negative years keep
their sign, years ≥ 10000 are printed with a `+` sign. -/
def formatYear (y : Int) : List Char :=
  if y < 0 then '-' :: fmt4 (-y).toNat
  else if 10000 ≤ y then '+' :: natDigits y.toNat
  else fmt4 y.toNat

/-- chrono `date.format("%d.%m.%Y")`. -/
def formatDate (t : SDate) : List Char :=
  fmt2 t.day ++ '.' :: fmt2 t.month ++ '.' :: formatYear t.year

/-! ## Enumerations of `src/fso/communes.rs`

Each Rust enum is `#[repr(u8)]` with `Deserialize_repr`: the wire field is
parsed as a `u8` and matched against the declared discriminants; any other
value is a deserialization error.  `ofCode` is that discriminant match. -/

/-- Rust `Status`: finality of a municipality mutation. -/
inductive Status where
  | tentative
  | final
deriving DecidableEq, Repr

/-- Discriminant match for `Status` (0, 1). -/
def Status.ofCode (n : Nat) : Option Status :=
  if n = 0 then some .tentative
  else if n = 1 then some .final
  else none

/-- Rust `MunicipalityMode`: type of municipality. -/
inductive MunicipalityMode where
  | politicalCommune
  | municipalityFreeArea
  | cantonalLakePortion
deriving DecidableEq, Repr

/-- Discriminant match for `MunicipalityMode` (11, 12, 13). -/
def MunicipalityMode.ofCode (n : Nat) : Option MunicipalityMode :=
  if n = 11 then some .politicalCommune
  else if n = 12 then some .municipalityFreeArea
  else if n = 13 then some .cantonalLakePortion
  else none

/-- Rust `DistrictMode`: type of district. -/
inductive DistrictMode where
  | district
  | cantonWithoutDistricts
  | districtFreeArea
deriving DecidableEq, Repr

/-- Discriminant match for `DistrictMode` (15, 16, 17). -/
def DistrictMode.ofCode (n : Nat) : Option DistrictMode :=
  if n = 15 then some .district
  else if n = 16 then some .cantonWithoutDistricts
  else if n = 17 then some .districtFreeArea
  else none

/-- Rust `AdmissionMode`: reason an entity version was opened. -/
inductive AdmissionMode where
  | firstRegistration
  | creation
  | districtNameChange
  | municipalityNameChange
  | attachmentToAnother
  | territoryMunicipalityChange
  | formalRenumbering
deriving DecidableEq, Repr

/-- Discriminant match for `AdmissionMode` (20–24, 26, 27). -/
def AdmissionMode.ofCode (n : Nat) : Option AdmissionMode :=
  if n = 20 then some .firstRegistration
  else if n = 21 then some .creation
  else if n = 22 then some .districtNameChange
  else if n = 23 then some .municipalityNameChange
  else if n = 24 then some .attachmentToAnother
  else if n = 26 then some .territoryMunicipalityChange
  else if n = 27 then some .formalRenumbering
  else none

/-- Rust `AbolitionMode`: reason an entity version was closed. -/
inductive AbolitionMode where
  | districtNameChange
  | municipalityNameChange
  | attachmentToAnother
  | territoryMunicipalityChange
  | formalRenumbering
  | radiation
  | mutationAnnulled
deriving DecidableEq, Repr

/-- Discriminant match for `AbolitionMode` (22–24, 26, 27, 29, 30). -/
def AbolitionMode.ofCode (n : Nat) : Option AbolitionMode :=
  if n = 22 then some .districtNameChange
  else if n = 23 then some .municipalityNameChange
  else if n = 24 then some .attachmentToAnother
  else if n = 26 then some .territoryMunicipalityChange
  else if n = 27 then some .formalRenumbering
  else if n = 29 then some .radiation
  else if n = 30 then some .mutationAnnulled
  else none

/-! ## Record types

Integer fields of the Rust structs (`u8`/`u16`/`u32` aliases `CantonId`,
`DistrictId`, `MutationId`, …) are `Nat`s whose bound is enforced where the
source parses them. -/

/-- Rust `Canton` (4 fields, in wire order). -/
structure Canton where
  id : Nat
  abbreviation : List Char
  name : List Char
  date_of_change : SDate
deriving DecidableEq, Repr

/-- Rust `District` (13 fields, in wire order). -/
structure District where
  hist_id : Nat
  canton_id : Nat
  id : Nat
  name : List Char
  short_name : List Char
  entry_mode : DistrictMode
  admission_number : Nat
  admission_mode : AdmissionMode
  admission_date : SDate
  abolition_number : Option Nat
  abolition_mode : Option AbolitionMode
  abolition_date : Option SDate
  date_of_change : SDate
deriving DecidableEq, Repr

/-- Rust `Municipality` (15 fields, in wire order). -/
structure Municipality where
  hist_id : Nat
  district_hist_id : Nat
  canton_abbreviation : List Char
  id : Nat
  name : List Char
  short_name : List Char
  entry_mode : MunicipalityMode
  status : Status
  admission_number : Nat
  admission_mode : AdmissionMode
  admission_date : SDate
  abolition_number : Option Nat
  abolition_mode : Option AbolitionMode
  abolition_date : Option SDate
  date_of_change : SDate
deriving DecidableEq, Repr

/-- Rust `Mutation`: the admission/abolition view derived by the accessors. -/
structure Mutation (Mode : Type) where
  number : Nat
  mode : Mode
  date : SDate
deriving DecidableEq, Repr

/-- Rust `District::abolition`: the `?`-chain over the three optional fields. -/
def District.abolition (r : District) : Option (Mutation AbolitionMode) :=
  match r.abolition_number, r.abolition_mode, r.abolition_date with
  | some n, some m, some d => some ⟨n, m, d⟩
  | _, _, _ => none

/-- Rust `Municipality::abolition`: the `?`-chain over the three optional fields. -/
def Municipality.abolition (r : Municipality) : Option (Mutation AbolitionMode) :=
  match r.abolition_number, r.abolition_mode, r.abolition_date with
  | some n, some m, some d => some ⟨n, m, d⟩
  | _, _, _ => none

/-! ## Per-field parsing (serde/csv field deserialization) -/

/-- A per-row decode error, as `csv::Error` reports it: a field count not
matching the struct, an unparseable field (identified by its 0-based
position), or the reader-level `UnequalLengths` raised when a record's
field count differs from the first record's. -/
inductive DecErr where
  | wrongFieldCount (got : Nat)
  | badField (idx : Nat)
  | unequalLengths (expected got : Nat)
deriving DecidableEq, Repr

/-- Digits-only unsigned parse (value of a nonempty all-digit string). -/
def parseUCore (cs : List Char) : Option Nat :=
  if !cs.isEmpty && cs.all isDigitC then
    some (cs.foldl (fun a c => 10 * a + dVal c) 0)
  else none

/-- Rust `str::parse::<uN>` on a csv field: an optional leading `+`, then
one or more digits, and the value must fit the integer width (`bound`). -/
def parseU (bound : Nat) (cs : List Char) : Option Nat := do
  let ds := match cs with | '+' :: rest => rest | _ => cs
  let v ← parseUCore ds
  if v ≤ bound then some v else none

/-- Required integer field. -/
def reqNat (bound idx : Nat) (cs : List Char) : Except DecErr Nat :=
  match parseU bound cs with
  | some v => .ok v
  | none => .error (.badField idx)

/-- Required enumerated field: parse as `u8`, then the discriminant match. -/
def reqEnum {α : Type} (ofCode : Nat → Option α) (idx : Nat) (cs : List Char) :
    Except DecErr α :=
  match parseU 255 cs >>= ofCode with
  | some v => .ok v
  | none => .error (.badField idx)

/-- Required date field (`i_serde::date_dd_mm_yyyyy_dotted::deserialize`). -/
def reqDate (idx : Nat) (cs : List Char) : Except DecErr SDate :=
  match parseDate cs with
  | some v => .ok v
  | none => .error (.badField idx)

/-- Rust `Option<uN>` field: csv maps an empty field to `None`, otherwise
parses the content. -/
def optNatP (bound : Nat) (cs : List Char) : Option (Option Nat) :=
  if cs.isEmpty then some none else (parseU bound cs).map some

/-- Rust `Option<enum>` field. -/
def optEnumP {α : Type} (ofCode : Nat → Option α) (cs : List Char) :
    Option (Option α) :=
  if cs.isEmpty then some none else (parseU 255 cs >>= ofCode).map some

/-- Rust `Option<Date>` field (`i_serde::option_date_dd_mm_yyyyy_dotted`):
the empty field is `None`, otherwise the content must parse as a date. -/
def optDateP (cs : List Char) : Option (Option SDate) :=
  if cs.isEmpty then some none else (parseDate cs).map some

/-- Optional integer field, as a row-level decode step. -/
def optNatF (bound idx : Nat) (cs : List Char) : Except DecErr (Option Nat) :=
  match optNatP bound cs with
  | some v => .ok v
  | none => .error (.badField idx)

/-- Optional enumerated field, as a row-level decode step. -/
def optEnumF {α : Type} (ofCode : Nat → Option α) (idx : Nat) (cs : List Char) :
    Except DecErr (Option α) :=
  match optEnumP ofCode cs with
  | some v => .ok v
  | none => .error (.badField idx)

/-- Optional date field, as a row-level decode step. -/
def optDateF (idx : Nat) (cs : List Char) : Except DecErr (Option SDate) :=
  match optDateP cs with
  | some v => .ok v
  | none => .error (.badField idx)

/-! ## Row decoding

Serde deserializes each record's ordered fields into the struct's fields in
declared order; a record whose field count does not match, or any field
failing its parse, is a per-row error. -/

/-- Decode one `Canton` row. -/
def decodeCanton (fs : List (List Char)) : Except DecErr Canton :=
  match fs with
  | [f0, f1, f2, f3] => do
    let id ← reqNat 255 0 f0
    let dc ← reqDate 3 f3
    pure ⟨id, f1, f2, dc⟩
  | _ => .error (.wrongFieldCount fs.length)

/-- Decode one `District` row. -/
def decodeDistrict (fs : List (List Char)) : Except DecErr District :=
  match fs with
  | [f0, f1, f2, f3, f4, f5, f6, f7, f8, f9, f10, f11, f12] => do
    let hist ← reqNat 4294967295 0 f0
    let kt ← reqNat 255 1 f1
    let id ← reqNat 65535 2 f2
    let em ← reqEnum DistrictMode.ofCode 5 f5
    let an ← reqNat 65535 6 f6
    let am ← reqEnum AdmissionMode.ofCode 7 f7
    let ad ← reqDate 8 f8
    let bn ← optNatF 65535 9 f9
    let bm ← optEnumF AbolitionMode.ofCode 10 f10
    let bd ← optDateF 11 f11
    let dc ← reqDate 12 f12
    pure ⟨hist, kt, id, f3, f4, em, an, am, ad, bn, bm, bd, dc⟩
  | _ => .error (.wrongFieldCount fs.length)

/-- Decode one `Municipality` row. -/
def decodeMunicipality (fs : List (List Char)) : Except DecErr Municipality :=
  match fs with
  | [f0, f1, f2, f3, f4, f5, f6, f7, f8, f9, f10, f11, f12, f13, f14] => do
    let hist ← reqNat 4294967295 0 f0
    let dh ← reqNat 4294967295 1 f1
    let id ← reqNat 65535 3 f3
    let em ← reqEnum MunicipalityMode.ofCode 6 f6
    let st ← reqEnum Status.ofCode 7 f7
    let an ← reqNat 65535 8 f8
    let am ← reqEnum AdmissionMode.ofCode 9 f9
    let ad ← reqDate 10 f10
    let bn ← optNatF 65535 11 f11
    let bm ← optEnumF AbolitionMode.ofCode 12 f12
    let bd ← optDateF 13 f13
    let dc ← reqDate 14 f14
    pure ⟨hist, dh, f2, id, f4, f5, em, st, an, am, ad, bn, bm, bd, dc⟩
  | _ => .error (.wrongFieldCount fs.length)

/-! ## Dataset payload splitting and iteration

`Dataset`'s csv reader is configured with delimiter `\t`, terminator
`Terminator::CRLF` (which in the csv crate ends a record at `\r\n`, `\r`
or `\n`), quoting disabled and no header row; blank lines yield no record.
`flexible` is left at its default `false`, so the first record read fixes
the expected field count and every later record with a different count is
yielded as an `UnequalLengths` error instead of being deserialized (the
reader then continues with the next record).  Records of matching length
are deserialized in order, yielding `Ok` or a per-record error. -/

/-- Split on a separator character, Rust `str::split` semantics. -/
def splitOnChar (sep : Char) : List Char → List (List Char)
  | [] => [[]]
  | c :: cs =>
    let r := splitOnChar sep cs
    if c = sep then [] :: r
    else
      match r with
      | [] => [[c]]
      | h :: t => (c :: h) :: t

/-- Split the payload into lines at `\r\n`, `\r` or `\n`. -/
def splitLines : List Char → List (List Char)
  | [] => [[]]
  | '\r' :: '\n' :: rest => [] :: splitLines rest
  | '\r' :: rest => [] :: splitLines rest
  | '\n' :: rest => [] :: splitLines rest
  | c :: rest =>
    match splitLines rest with
    | [] => [[c]]
    | h :: t => (c :: h) :: t

/-- The raw records of a payload: non-blank lines, split into fields. -/
def recordsOf (raw : List Char) : List (List (List Char)) :=
  ((splitLines raw).filter fun l => !l.isEmpty).map (splitOnChar '\t')

/-- One iteration pass of the csv reader: the first record fixes the
expected field count; each later record of a different count yields an
`UnequalLengths` error item (iteration continuing), and records of
matching count are handed to the row decoder. -/
def iterItems {T : Type} (dec : List (List Char) → Except DecErr T)
    (raw : List Char) : List (Except DecErr T) :=
  match recordsOf raw with
  | [] => []
  | r0 :: rest =>
    dec r0 ::
      rest.map fun r =>
        if r.length = r0.length then dec r
        else .error (.unequalLengths r0.length r.length)

/-- Iterating `Dataset<Canton>`: one result per record. -/
def cantonItems (raw : List Char) : List (Except DecErr Canton) :=
  iterItems decodeCanton raw

/-- Iterating `Dataset<District>`: one result per record. -/
def districtItems (raw : List Char) : List (Except DecErr District) :=
  iterItems decodeDistrict raw

/-- Iterating `Dataset<Municipality>`: one result per record. -/
def municipalityItems (raw : List Char) : List (Except DecErr Municipality) :=
  iterItems decodeMunicipality raw

/-! ## Archive member map (`Datastore::load` in `src/fso/communes.rs`)

`load` builds a `HashMap` from entity-type code to member name: for each
archive member name it strips the `TXT_FSO_ID` prefix, then the `/1.2/`
prefix, then the `.txt` suffix, splits the remainder on `'_'` and takes the
segment at index 2 as the key; names failing any step are skipped. -/

/-- Rust `str::strip_prefix`: the remainder when `pre` is a prefix. -/
def stripPre : List Char → List Char → Option (List Char)
  | [], l => some l
  | _ :: _, [] => none
  | p :: ps, c :: cs => if c = p then stripPre ps cs else none

/-- Rust `str::strip_suffix`: the remainder when `suf` is a suffix. -/
def stripSuf (l suf : List Char) : Option (List Char) :=
  (stripPre suf.reverse l.reverse).map List.reverse

/-- Rust `TXT_FSO_ID`, the dataset identifier used as path prefix. -/
def txtFsoId : List Char := "dz-b-00.04-hgv-01".toList

/-- The key extraction of `Datastore::load`'s `filter_map`: strip prefixes
and suffix, split on `'_'`, take `.nth(2)`. -/
def entryCode (name : List Char) : Option (List Char) := do
  let r1 ← stripPre txtFsoId name
  let r2 ← stripPre "/1.2/".toList r1
  let body ← stripSuf r2 ".txt".toList
  (splitOnChar '_' body)[2]?

/-- The member map as the list of (code, member-name) pairs produced by
the `filter_map`. -/
def zipEntries (names : List (List Char)) : List (List Char × List Char) :=
  names.filterMap fun n => (entryCode n).map fun c => (c, n)

/-- Rust `HashMap` lookup over the collected pairs (on a duplicate key, the
later insertion wins, as in `HashMap::from_iter`). -/
def mapLookup (entries : List (List Char × List Char)) (k : List Char) :
    Option (List Char) :=
  entries.foldl (fun acc e => if e.1 = k then some e.2 else acc) none

/-- The error message `zip_to_dataset` attaches to a failed lookup. -/
def missingMemberMsg : List Char := "Missing cantons file in archive".toList

/-- The member lookup at the head of `zip_to_dataset`:
`zippath.get(fname).ok_or("Missing cantons file in archive")`. -/
def zipMemberFor (entries : List (List Char × List Char)) (code : List Char) :
    Except (List Char) (List Char) :=
  match mapLookup entries code with
  | some n => .ok n
  | none => .error missingMemberMsg

/-- List-segment search: does `nee` occur contiguously inside `hay`?
(Used to state whether an error message names a code.) -/
def startsWithSeg : List Char → List Char → Bool
  | _, [] => true
  | [], _ :: _ => false
  | a :: as, b :: bs => a == b && startsWithSeg as bs

/-- Contiguous-sublist test. -/
def containsSeg : List Char → List Char → Bool
  | [], nee => nee.isEmpty
  | h :: t, nee => startsWithSeg (h :: t) nee || containsSeg t nee

/-! ## Cache store (`Downloader` in `src/tools.rs`)

The filesystem and the network are modelled as explicit state: a path maps
to `absent`, a directory, or a regular file with content and modification
time; a URL maps to a transport outcome.  `resp delivered complete` is a
response stream whose body yields `delivered` bytes and then either ends
successfully (`complete = true`) or fails mid-transfer (`complete = false`
— `io::copy` writes what it read, then returns the error).  `httpErr`
covers connection failures and non-success statuses, which
`http_get`'s `error_for_status` turns into errors before any file is
created.  Times are `Nat`s; `+`/`>` on them model
`SystemTime + Duration > now`. -/

/-- State of one filesystem path. -/
inductive PathState where
  | absent
  | dir
  | file (content : List Char) (mtime : Nat)
deriving DecidableEq, Repr

/-- Outcome of `http_get` on a URL, including how the body streams. -/
inductive NetResult where
  | httpErr
  | resp (delivered : List Char) (complete : Bool)
deriving DecidableEq, Repr

/-- The explicit world state threaded through `cache_get`. -/
structure World where
  fs : String → PathState
  net : String → NetResult
  now : Nat

/-- The `Downloader` configuration: validity window and cache-path scheme. -/
structure Dl where
  validity : Nat
  cachePathF : String → String

/-- Errors of `cache_get`. -/
inductive CgErr where
  | transport
  | ioErr
deriving DecidableEq, Repr

/-- Rust `Downloader::is_valid`: the path is a regular file and
`modified + default_validity > now`. -/
def isValidB (d : Dl) (st : PathState) (now : Nat) : Bool :=
  match st with
  | .file _ t => t + d.validity > now
  | _ => false

/-- Rust `Downloader::cache_get`: compute the cache path; if the cache file is
not valid, fetch the URL (propagating transport errors before touching the
file), create the file at the final cache path and copy the response body
into it (writing whatever was delivered even when the transfer then
fails); return the path.  The result is (outcome, new world, number of
network requests made). -/
def cacheGet (d : Dl) (w : World) (url : String) :
    Except CgErr String × World × Nat :=
  let path := d.cachePathF url
  if isValidB d (w.fs path) w.now then (.ok path, w, 0)
  else
    match w.net url with
    | .httpErr => (.error .transport, w, 1)
    | .resp delivered complete =>
      let w' : World :=
        { w with fs := fun p => if p = path then .file delivered w.now else w.fs p }
      if complete then (.ok path, w', 1) else (.error .ioErr, w', 1)

/-! ## Concrete instances used by witnesses and counterexamples -/

/-- A `Downloader` configuration: 24h validity, a simple path scheme. -/
def exDl : Dl := { validity := 86400, cachePathF := fun u => "cache-" ++ u }

/-- A world with an empty cache and a URL that downloads completely. -/
def exWorldOk : World :=
  { fs := fun _ => .absent
    net := fun _ => .resp "DATA".toList true
    now := 1000 }

/-- A world with an empty cache and a URL whose transfer fails after
delivering a prefix of the body. -/
def exWorldFail : World :=
  { fs := fun _ => .absent
    net := fun _ => .resp "PART".toList false
    now := 1000 }

/-- Three municipality rows: two well-formed, the third with the
unrecognized entry-mode code 99. -/
def exPayload3 : List Char :=
  ("1000\t100\tZZ\t10\tZztown\tZzt\t11\t1\t1\t20\t01.01.2000\t\t\t\t01.01.2000\r\n" ++
   "1001\t100\tZZ\t11\tYy\tYy\t12\t0\t2\t21\t02.03.1960\t3\t29\t31.12.2009\t31.12.2009\r\n" ++
   "1002\t100\tZZ\t12\tXx\tXx\t99\t1\t1\t20\t01.01.2000\t\t\t\t01.01.2000\r\n").toList

/-- A member name whose body has four underscore segments: the final
segment is `GDE`, the segment at index 2 is `c`. -/
def exMemberName4 : List Char := "dz-b-00.04-hgv-01/1.2/a_b_c_GDE.txt".toList

/-- Two municipality rows: the first truncated to 14 fields, the second a
fully valid 15-field row. -/
def exPayloadBadFirst : List Char :=
  ("1000\t100\tZZ\t10\tZztown\tZzt\t11\t1\t1\t20\t01.01.2000\t\t\t\r\n" ++
   "1001\t100\tZZ\t11\tYy\tYy\t11\t1\t1\t20\t01.01.2000\t\t\t\t01.01.2000\r\n").toList

end Swissdata

namespace Swissdata

/-! ## Shared helper lemmas -/

/-- Lemma: `Except`'s bind applied to `ok`. -/
theorem exceptBind_ok {ε α β : Type} (a : α) (f : α → Except ε β) :
    (Except.ok a : Except ε α) >>= f = f a := rfl

/-- Lemma: `Except`'s `pure` is `ok`. -/
theorem exceptPure_eq_ok {ε α : Type} (a : α) :
    (pure a : Except ε α) = .ok a := rfl

/-- A digit character is not whitespace. -/
theorem isWs_eq_false_of_digit {c : Char} (h : isDigitC c = true) :
    isWs c = false := by
  simp only [isDigitC, Bool.and_eq_true, decide_eq_true_eq] at h
  simp only [isWs, Bool.or_eq_false_iff, beq_eq_false_iff_ne, ne_eq]
  omega

/-- Lemma: `dropWhile isWs` keeps a list headed by a digit intact. -/
theorem dropWhile_cons_digit {c : Char} {r : List Char}
    (h : isDigitC c = true) : (c :: r).dropWhile isWs = c :: r := by
  simp [List.dropWhile, isWs_eq_false_of_digit h]

/-- A digit character is not `'-'`. -/
theorem digit_ne_dash {c : Char} (h : isDigitC c = true) : ¬ c = '-' := by
  intro he; subst he; exact absurd h (by decide)

/-- A digit character is not `'+'`. -/
theorem digit_ne_plus {c : Char} (h : isDigitC c = true) : ¬ c = '+' := by
  intro he; subst he; exact absurd h (by decide)

/-- A digit character's value is at most 9. -/
theorem dVal_le_9 {c : Char} (h : isDigitC c = true) : dVal c ≤ 9 := by
  simp only [isDigitC, Bool.and_eq_true, decide_eq_true_eq] at h
  simp only [dVal]; omega

/-- Reprinting a digit character from its value. -/
theorem dChar_dVal {c : Char} (h : isDigitC c = true) : dChar (dVal c) = c := by
  simp only [isDigitC, Bool.and_eq_true, decide_eq_true_eq] at h
  have he : 48 + (c.toNat - 48) = c.toNat := by omega
  simp [dChar, dVal, he, Char.ofNat_toNat]

/-- Lemma: `fmt2` on a two-digit value prints the two digits. -/
theorem fmt2_two_digits {x y : Nat} (hx : x ≤ 9) (hy : y ≤ 9) :
    fmt2 (10 * x + y) = [dChar x, dChar y] := by
  have h1 : 10 * x + y < 100 := by omega
  have h2 : (10 * x + y) / 10 = x := by omega
  have h3 : (10 * x + y) % 10 = y := by omega
  simp [fmt2, h1, h2, h3]

/-- Lemma: `fmt4` on a four-digit value prints the four digits. -/
theorem fmt4_four_digits {w x y z : Nat}
    (hw : w ≤ 9) (hx : x ≤ 9) (hy : y ≤ 9) (hz : z ≤ 9) :
    fmt4 (1000 * w + 100 * x + 10 * y + z) = [dChar w, dChar x, dChar y, dChar z] := by
  have h1 : 1000 * w + 100 * x + 10 * y + z < 10000 := by omega
  have h2 : (1000 * w + 100 * x + 10 * y + z) / 1000 = w := by omega
  have h3 : (1000 * w + 100 * x + 10 * y + z) / 100 % 10 = x := by omega
  have h4 : (1000 * w + 100 * x + 10 * y + z) / 10 % 10 = y := by omega
  have h5 : (1000 * w + 100 * x + 10 * y + z) % 10 = z := by omega
  simp [fmt4, h1, h2, h3, h4, h5]

/-- Lemma: `formatYear` on a year in 0–9999 is plain 4-digit zero padding. -/
theorem formatYear_small {n : Nat} (h : n ≤ 9999) :
    formatYear (n : Int) = fmt4 n := by
  have h1 : ¬ ((n : Int) < 0) := by omega
  have h2 : ¬ ((10000 : Int) ≤ (n : Int)) := by omega
  simp [formatYear, h1, h2]

/-- Lemma: `stripPre` succeeds exactly on lists extending the prefix. -/
theorem stripPre_eq_some {p : List Char} :
    ∀ {l r : List Char}, stripPre p l = some r ↔ l = p ++ r := by
  induction p with
  | nil => intro l r; simp [stripPre]
  | cons x xs ih =>
    intro l r
    cases l with
    | nil => simp [stripPre]
    | cons c cs =>
      simp only [stripPre, List.cons_append, List.cons.injEq]
      by_cases h : c = x
      · subst h; simp [ih]
      · simp [h]

/-- Lemma: `stripSuf` succeeds exactly on lists extending the suffix. -/
theorem stripSuf_eq_some {l suf r : List Char} :
    stripSuf l suf = some r ↔ l = r ++ suf := by
  simp only [stripSuf, Option.map_eq_some', stripPre_eq_some]
  constructor
  · rintro ⟨r', h1, rfl⟩
    have h2 : l.reverse.reverse = (suf.reverse ++ r').reverse := by rw [h1]
    simpa [List.reverse_append] using h2
  · rintro rfl
    exact ⟨r.reverse, by simp [List.reverse_append], by simp⟩

/-! ## Claim theorems -/

/-- C10: the `abolition()` accessor of `District` and `Municipality`
returns `some` mutation, carrying the record's abolition number, mode and
date, exactly when all three optional abolition fields are present, and
`none` when any of the three is absent. -/
theorem c10_abolition_accessor :
    (∀ (r : District) (n : Nat) (m : AbolitionMode) (d : SDate),
        r.abolition = some ⟨n, m, d⟩ ↔
          r.abolition_number = some n ∧ r.abolition_mode = some m ∧
            r.abolition_date = some d) ∧
    (∀ r : District,
        r.abolition = none ↔
          r.abolition_number = none ∨ r.abolition_mode = none ∨
            r.abolition_date = none) ∧
    (∀ (r : Municipality) (n : Nat) (m : AbolitionMode) (d : SDate),
        r.abolition = some ⟨n, m, d⟩ ↔
          r.abolition_number = some n ∧ r.abolition_mode = some m ∧
            r.abolition_date = some d) ∧
    (∀ r : Municipality,
        r.abolition = none ↔
          r.abolition_number = none ∨ r.abolition_mode = none ∨
            r.abolition_date = none) := by
  refine ⟨fun r n m d => ?_, fun r => ?_, fun r n m d => ?_, fun r => ?_⟩
  · obtain ⟨_, _, _, _, _, _, _, _, _, bn, bm, bd, _⟩ := r
    cases bn <;> cases bm <;> cases bd <;>
      simp [District.abolition, Mutation.mk.injEq, and_assoc]
  · obtain ⟨_, _, _, _, _, _, _, _, _, bn, bm, bd, _⟩ := r
    cases bn <;> cases bm <;> cases bd <;> simp [District.abolition]
  · obtain ⟨_, _, _, _, _, _, _, _, _, _, _, bn, bm, bd, _⟩ := r
    cases bn <;> cases bm <;> cases bd <;>
      simp [Municipality.abolition, Mutation.mk.injEq, and_assoc]
  · obtain ⟨_, _, _, _, _, _, _, _, _, _, _, bn, bm, bd, _⟩ := r
    cases bn <;> cases bm <;> cases bd <;> simp [Municipality.abolition]

/-- C8: each enumeration's discriminant match accepts exactly the fixed
wire codes (Municipality mode 11/12/13, District mode 15/16/17, admission
mode 20–24/26/27, abolition mode 22–24/26/27/29/30, status 0/1) and maps
every other integer to `none`; the field decoder `reqEnum` turns that
`none` into a decode error, never a coerced variant. -/
theorem c8_enum_codes_closed :
    (∀ n : Nat, (MunicipalityMode.ofCode n).isSome ↔ n = 11 ∨ n = 12 ∨ n = 13) ∧
    (∀ n : Nat, (DistrictMode.ofCode n).isSome ↔ n = 15 ∨ n = 16 ∨ n = 17) ∧
    (∀ n : Nat, (AdmissionMode.ofCode n).isSome ↔
        n = 20 ∨ n = 21 ∨ n = 22 ∨ n = 23 ∨ n = 24 ∨ n = 26 ∨ n = 27) ∧
    (∀ n : Nat, (AbolitionMode.ofCode n).isSome ↔
        n = 22 ∨ n = 23 ∨ n = 24 ∨ n = 26 ∨ n = 27 ∨ n = 29 ∨ n = 30) ∧
    (∀ n : Nat, (Status.ofCode n).isSome ↔ n = 0 ∨ n = 1) ∧
    (∀ (α : Type) (ofCode : Nat → Option α) (idx : Nat) (cs : List Char),
        reqEnum ofCode idx cs = .error (.badField idx) ∨
          ∃ n v, parseU 255 cs = some n ∧ ofCode n = some v ∧
            reqEnum ofCode idx cs = .ok v) := by
  refine ⟨fun n => ?_, fun n => ?_, fun n => ?_, fun n => ?_, fun n => ?_,
    fun α ofCode idx cs => ?_⟩
  · unfold MunicipalityMode.ofCode; split_ifs <;> simp_all
  · unfold DistrictMode.ofCode; split_ifs <;> simp_all
  · unfold AdmissionMode.ofCode; split_ifs <;> simp_all
  · unfold AbolitionMode.ofCode; split_ifs <;> simp_all
  · unfold Status.ofCode; split_ifs <;> simp_all
  · unfold reqEnum
    cases hp : parseU 255 cs with
    | none => left; simp [Option.bind, hp]
    | some n =>
      cases hc : ofCode n with
      | none => left; simp [Option.bind_eq_bind, hp, hc]
      | some v => right; exact ⟨n, v, rfl, hc, by simp [Option.bind_eq_bind, hp, hc]⟩

/-- C5: `Downloader::is_valid` holds exactly when the path is a regular
file whose modification time plus the validity window is later than now;
in particular an absent path is never valid. -/
theorem c5_is_valid_iff :
    ∀ (d : Dl) (st : PathState) (now : Nat),
      (isValidB d st now = true ↔
        ∃ content mtime, st = .file content mtime ∧ mtime + d.validity > now) ∧
      isValidB d .absent now = false := by
  intro d st now
  refine ⟨?_, rfl⟩
  cases st <;> simp [isValidB]
  exact ⟨fun h => ⟨_, _, ⟨rfl, rfl⟩, h⟩, fun ⟨_, _, ⟨_, hm⟩, h⟩ => hm ▸ h⟩

/-- C1: looking up an entity-type code absent from the member map fails,
but with the fixed message "Missing cantons file in archive", which names
no entity-type code — not even for the `BEZ`/`GDE` lookups it is also used
for; a code present in the map is returned without error. -/
theorem c1_missing_member_message :
    zipMemberFor [] "GDE".toList = .error missingMemberMsg ∧
    zipMemberFor [] "BEZ".toList = .error missingMemberMsg ∧
    containsSeg missingMemberMsg "GDE".toList = false ∧
    containsSeg missingMemberMsg "BEZ".toList = false ∧
    containsSeg missingMemberMsg "KT".toList = false ∧
    zipMemberFor [("GDE".toList, "m.txt".toList)] "GDE".toList
      = .ok "m.txt".toList := by
  decide

/-- C7: `cache_get` creates the file at the final cache path before
copying the body, so a transfer that fails after delivering a prefix
returns an error yet leaves that prefix stored at the cache path — and the
truncated file's fresh modification time even makes `is_valid` accept it. -/
theorem c7_half_written_file :
    (cacheGet exDl exWorldFail "http://x").1 = .error .ioErr ∧
    (cacheGet exDl exWorldFail "http://x").2.1.fs "cache-http://x"
      = .file "PART".toList 1000 ∧
    isValidB exDl
      ((cacheGet exDl exWorldFail "http://x").2.1.fs "cache-http://x") 1000
      = true := by
  refine ⟨rfl, ?_, ?_⟩ <;> decide

/-- C2 counterexample: a District row and a Municipality row in which
exactly one of the three abolition fields is present (the number) decode
successfully — the claim says such rows must fail decoding. -/
theorem c2_counterexample :
    decodeDistrict
      ["100".toList, "1".toList, "10".toList, "Aa".toList, "A".toList,
       "15".toList, "1".toList, "20".toList, "01.01.2000".toList,
       "123".toList, [], [], "02.01.2000".toList]
    = .ok ⟨100, 1, 10, "Aa".toList, "A".toList, .district, 1,
           .firstRegistration, ⟨2000, 1, 1⟩, some 123, none, none,
           ⟨2000, 1, 2⟩⟩ ∧
    decodeMunicipality
      ["1000".toList, "100".toList, "ZZ".toList, "10".toList, "Zz".toList,
       "Zz".toList, "11".toList, "1".toList, "1".toList, "20".toList,
       "01.01.2000".toList, "7".toList, [], [], "02.01.2000".toList]
    = .ok ⟨1000, 100, "ZZ".toList, 10, "Zz".toList, "Zz".toList,
           .politicalCommune, .final, 1, .firstRegistration, ⟨2000, 1, 1⟩,
           some 7, none, none, ⟨2000, 1, 2⟩⟩ := by
  decide

/-- C2 (amended): decoding imposes no all-or-none coupling on the three
abolition fields — each is independently optional, so a row whose other
fields parse decodes successfully under every presence pattern of the
abolition triple, the absent fields becoming `none`. -/
theorem c2_abolition_fields_independent :
    (∀ (f0 f1 f2 f3 f4 f5 f6 f7 f8 f9 f10 f11 f12 : List Char)
       (hist kt id an : Nat) (em : DistrictMode) (am : AdmissionMode)
       (ad dc : SDate) (bn : Option Nat) (bm : Option AbolitionMode)
       (bd : Option SDate),
       reqNat 4294967295 0 f0 = .ok hist →
       reqNat 255 1 f1 = .ok kt →
       reqNat 65535 2 f2 = .ok id →
       reqEnum DistrictMode.ofCode 5 f5 = .ok em →
       reqNat 65535 6 f6 = .ok an →
       reqEnum AdmissionMode.ofCode 7 f7 = .ok am →
       reqDate 8 f8 = .ok ad →
       optNatF 65535 9 f9 = .ok bn →
       optEnumF AbolitionMode.ofCode 10 f10 = .ok bm →
       optDateF 11 f11 = .ok bd →
       reqDate 12 f12 = .ok dc →
       decodeDistrict [f0, f1, f2, f3, f4, f5, f6, f7, f8, f9, f10, f11, f12]
         = .ok ⟨hist, kt, id, f3, f4, em, an, am, ad, bn, bm, bd, dc⟩) ∧
    (∀ (f0 f1 f2 f3 f4 f5 f6 f7 f8 f9 f10 f11 f12 f13 f14 : List Char)
       (hist dh id an : Nat) (em : MunicipalityMode) (st : Status)
       (am : AdmissionMode) (ad dc : SDate) (bn : Option Nat)
       (bm : Option AbolitionMode) (bd : Option SDate),
       reqNat 4294967295 0 f0 = .ok hist →
       reqNat 4294967295 1 f1 = .ok dh →
       reqNat 65535 3 f3 = .ok id →
       reqEnum MunicipalityMode.ofCode 6 f6 = .ok em →
       reqEnum Status.ofCode 7 f7 = .ok st →
       reqNat 65535 8 f8 = .ok an →
       reqEnum AdmissionMode.ofCode 9 f9 = .ok am →
       reqDate 10 f10 = .ok ad →
       optNatF 65535 11 f11 = .ok bn →
       optEnumF AbolitionMode.ofCode 12 f12 = .ok bm →
       optDateF 13 f13 = .ok bd →
       reqDate 14 f14 = .ok dc →
       decodeMunicipality
           [f0, f1, f2, f3, f4, f5, f6, f7, f8, f9, f10, f11, f12, f13, f14]
         = .ok ⟨hist, dh, f2, id, f4, f5, em, st, an, am, ad, bn, bm, bd, dc⟩) := by
  constructor
  · intro f0 f1 f2 f3 f4 f5 f6 f7 f8 f9 f10 f11 f12 hist kt id an em am ad
      dc bn bm bd h0 h1 h2 h5 h6 h7 h8 h9 h10 h11 h12
    simp only [decodeDistrict, h0, h1, h2, h5, h6, h7, h8, h9, h10, h11, h12,
      exceptBind_ok, exceptPure_eq_ok]
  · intro f0 f1 f2 f3 f4 f5 f6 f7 f8 f9 f10 f11 f12 f13 f14 hist dh id an em
      st am ad dc bn bm bd h0 h1 h3 h6 h7 h8 h9 h10 h11 h12 h13 h14
    simp only [decodeMunicipality, h0, h1, h3, h6, h7, h8, h9, h10, h11, h12,
      h13, h14, exceptBind_ok, exceptPure_eq_ok]

/-- C2 witness: the amended theorem applied to the concrete District row
whose only present abolition field is the number. -/
theorem c2_witness :
    decodeDistrict
      ["100".toList, "1".toList, "10".toList, "Aa".toList, "A".toList,
       "15".toList, "1".toList, "20".toList, "01.01.2000".toList,
       "123".toList, [], [], "02.01.2000".toList]
    = .ok ⟨100, 1, 10, "Aa".toList, "A".toList, .district, 1,
           .firstRegistration, ⟨2000, 1, 1⟩, some 123, none, none,
           ⟨2000, 1, 2⟩⟩ :=
  c2_abolition_fields_independent.1 "100".toList "1".toList "10".toList
    "Aa".toList "A".toList "15".toList "1".toList "20".toList
    "01.01.2000".toList "123".toList [] [] "02.01.2000".toList
    100 1 10 1 .district .firstRegistration ⟨2000, 1, 1⟩ ⟨2000, 1, 2⟩
    (some 123) none none
    (by decide) (by decide) (by decide) (by decide) (by decide) (by decide)
    (by decide) (by decide) (by decide) (by decide) (by decide)

/-- C9 counterexample: when the first row has 14 fields, the csv
reader's record-length check (`flexible` defaulting to `false`) makes the
second row — a fully valid 15-field municipality row, shown decoding to
`ok` on its own — come out as an `UnequalLengths` error item, so a valid
row after a failing row is not always yielded as a decoded record. -/
theorem c9_counterexample :
    municipalityItems exPayloadBadFirst
      = [.error (.wrongFieldCount 14), .error (.unequalLengths 14 15)] ∧
    decodeMunicipality ((recordsOf exPayloadBadFirst).get ⟨1, by decide⟩)
      = .ok ⟨1001, 100, "ZZ".toList, 11, "Yy".toList, "Yy".toList,
             .politicalCommune, .final, 1, .firstRegistration, ⟨2000, 1, 1⟩,
             none, none, none, ⟨2000, 1, 1⟩⟩ := by
  decide

/-- C9 (amended): iterating a dataset payload yields exactly one item per
record, in original order, and an erroneous row never terminates the
iteration — every index still has an item; a record whose field count
matches the first record's is decoded independently of the rows around it
(so valid rows of matching count after a bad row are still yielded as
decoded records), while a later record of a different count is yielded as
an `UnequalLengths` error item even if intrinsically valid. -/
theorem c9_iteration_per_row :
    (∀ raw : List Char,
        (municipalityItems raw).length = (recordsOf raw).length) ∧
    (∀ (raw : List Char) (i : Nat), i < (recordsOf raw).length →
        ((municipalityItems raw)[i]?).isSome = true) ∧
    (∀ (raw : List Char) (i : Nat) (r0 ri : List (List Char)),
        (recordsOf raw)[0]? = some r0 →
        (recordsOf raw)[i]? = some ri →
        ri.length = r0.length →
        (municipalityItems raw)[i]? = some (decodeMunicipality ri)) ∧
    (∀ (raw : List Char) (i : Nat) (r0 ri : List (List Char)),
        (recordsOf raw)[0]? = some r0 →
        (recordsOf raw)[i]? = some ri →
        0 < i →
        ri.length ≠ r0.length →
        (municipalityItems raw)[i]? =
          some (.error (.unequalLengths r0.length ri.length))) := by
  have hlen : ∀ raw : List Char,
      (municipalityItems raw).length = (recordsOf raw).length := by
    intro raw
    unfold municipalityItems iterItems
    cases recordsOf raw <;> simp
  refine ⟨hlen, fun raw i hi => ?_, fun raw i r0 ri h0 hi hl => ?_,
    fun raw i r0 ri h0 hi hpos hl => ?_⟩
  · rw [List.getElem?_eq_getElem ((hlen raw).symm ▸ hi)]
    rfl
  · unfold municipalityItems iterItems
    cases hrec : recordsOf raw with
    | nil => rw [hrec] at h0; simp at h0
    | cons a rest =>
      rw [hrec] at h0 hi
      simp only [List.getElem?_cons_zero, Option.some_inj] at h0
      subst h0
      cases i with
      | zero =>
        simp only [List.getElem?_cons_zero, Option.some_inj] at hi
        subst hi
        simp
      | succ j =>
        simp only [List.getElem?_cons_succ] at hi
        simp [List.getElem?_map, hi, hl]
  · unfold municipalityItems iterItems
    cases hrec : recordsOf raw with
    | nil => rw [hrec] at h0; simp at h0
    | cons a rest =>
      rw [hrec] at h0 hi
      simp only [List.getElem?_cons_zero, Option.some_inj] at h0
      subst h0
      cases i with
      | zero => exact absurd hpos (by simp)
      | succ j =>
        simp only [List.getElem?_cons_succ] at hi
        simp [List.getElem?_map, hi, hl]

/-- C9 witness: on three municipality rows of equal field count whose
third has the bad entry-mode code 99, iteration yields three items in
order, the third being the per-row error while the first two decode; and
on the bad-first-row payload, the second record of differing length comes
out as the `UnequalLengths` item the theorem describes. -/
theorem c9_witness :
    (municipalityItems exPayload3).length = (recordsOf exPayload3).length ∧
    (municipalityItems exPayload3)[2]? =
      some (decodeMunicipality ((recordsOf exPayload3).get ⟨2, by decide⟩)) ∧
    (municipalityItems exPayload3).map Except.isOk = [true, true, false] ∧
    (municipalityItems exPayloadBadFirst)[1]? =
      some (.error (.unequalLengths
        ((recordsOf exPayloadBadFirst).get ⟨0, by decide⟩).length
        ((recordsOf exPayloadBadFirst).get ⟨1, by decide⟩).length)) :=
  ⟨c9_iteration_per_row.1 exPayload3,
   c9_iteration_per_row.2.2.1 exPayload3 2
     ((recordsOf exPayload3).get ⟨0, by decide⟩)
     ((recordsOf exPayload3).get ⟨2, by decide⟩)
     (by decide) (by decide) (by decide),
   by decide,
   c9_iteration_per_row.2.2.2 exPayloadBadFirst 1
     ((recordsOf exPayloadBadFirst).get ⟨0, by decide⟩)
     ((recordsOf exPayloadBadFirst).get ⟨1, by decide⟩)
     (by decide) (by decide) (by decide) (by decide)⟩

/-- C4 counterexample: for a member name whose body has four
underscore-separated segments, the map construction keys it by the segment
at index 2 (`"c"`), not by the final segment before `.txt` (`"GDE"`); and
a conventional name with only two segments, whose final segment is the
entity code, is excluded altogether. -/
theorem c4_counterexample :
    entryCode exMemberName4 = some "c".toList ∧
    (splitOnChar '_' "a_b_c_GDE".toList).getLast? = some "GDE".toList ∧
    "c".toList ≠ "GDE".toList ∧
    entryCode "dz-b-00.04-hgv-01/1.2/x_GDE.txt".toList = none := by
  decide

/-- C4 (amended): the member-map construction strips the fixed prefix
`dz-b-00.04-hgv-01/1.2/` and suffix `.txt` and keys the name by the
underscore-separated segment at index 2 of the remainder (so names whose
remainder has fewer than three segments, like non-matching names, are
excluded); the map pairs that code with the full member name. -/
theorem c4_member_map_third_segment :
    (∀ (name code : List Char),
        entryCode name = some code ↔
          ∃ body,
            name = txtFsoId ++ "/1.2/".toList ++ body ++ ".txt".toList ∧
              (splitOnChar '_' body)[2]? = some code) ∧
    (∀ (names : List (List Char)) (code mem : List Char),
        (code, mem) ∈ zipEntries names ↔
          mem ∈ names ∧ entryCode mem = some code) := by
  constructor
  · intro name code
    simp only [entryCode, Option.bind_eq_bind, Option.bind_eq_some,
      stripPre_eq_some, stripSuf_eq_some]
    constructor
    · rintro ⟨r1, rfl, r2, rfl, body, rfl, h⟩
      exact ⟨body, by simp, h⟩
    · rintro ⟨body, rfl, h⟩
      exact ⟨"/1.2/".toList ++ (body ++ ".txt".toList), by simp,
        body ++ ".txt".toList, rfl, body, rfl, h⟩
  · intro names code mem
    simp only [zipEntries, List.mem_filterMap, Option.map_eq_some',
      Prod.mk.injEq]
    constructor
    · rintro ⟨n, hn, c, hc, rfl, rfl⟩
      exact ⟨hn, hc⟩
    · rintro ⟨hmem, hc⟩
      exact ⟨mem, hmem, code, hc, rfl, rfl⟩

/-- C6: if the cache file for a URL is valid, `cache_get` returns its path
with zero network requests and an unchanged world; if it is not, it
performs exactly one GET — propagating a transport/non-success failure
before touching the file — and on success stores the body at the cache
path and returns it, after which a second load within the validity window
again costs zero requests. -/
theorem c6_cache_get_behavior :
    ∀ (d : Dl) (w : World) (url : String),
      (isValidB d (w.fs (d.cachePathF url)) w.now = true →
        cacheGet d w url = (.ok (d.cachePathF url), w, 0)) ∧
      (isValidB d (w.fs (d.cachePathF url)) w.now = false →
        w.net url = .httpErr →
        cacheGet d w url = (.error .transport, w, 1)) ∧
      (∀ body : List Char,
        isValidB d (w.fs (d.cachePathF url)) w.now = false →
        w.net url = .resp body true →
        (cacheGet d w url).1 = .ok (d.cachePathF url) ∧
          (cacheGet d w url).2.2 = 1 ∧
          (cacheGet d w url).2.1.fs (d.cachePathF url) = .file body w.now) ∧
      (∀ (body : List Char) (n2 : Nat),
        isValidB d (w.fs (d.cachePathF url)) w.now = false →
        w.net url = .resp body true →
        w.now + d.validity > n2 →
        (cacheGet d { (cacheGet d w url).2.1 with now := n2 } url).1
            = .ok (d.cachePathF url) ∧
          (cacheGet d { (cacheGet d w url).2.1 with now := n2 } url).2.2
            = 0) := by
  intro d w url
  refine ⟨fun hv => ?_, fun hv hn => ?_, fun body hv hn => ?_,
    fun body n2 hv hn ht => ?_⟩
  · simp [cacheGet, hv]
  · simp [cacheGet, hv, hn]
  · simp [cacheGet, hv, hn]
  · simp only [cacheGet, hv, hn]
    simp [isValidB, ht]

/-- C6 witness: the theorem applied to a concrete downloader and world —
the first load of `"u"` fetches once and stores the body; a second load at
a later time inside the validity window costs zero requests. -/
theorem c6_witness :
    ((cacheGet exDl exWorldOk "u").1 = .ok (exDl.cachePathF "u") ∧
      (cacheGet exDl exWorldOk "u").2.2 = 1 ∧
      (cacheGet exDl exWorldOk "u").2.1.fs (exDl.cachePathF "u")
        = .file "DATA".toList 1000) ∧
    ((cacheGet exDl
          { (cacheGet exDl exWorldOk "u").2.1 with now := 2000 } "u").1
        = .ok (exDl.cachePathF "u") ∧
      (cacheGet exDl
          { (cacheGet exDl exWorldOk "u").2.1 with now := 2000 } "u").2.2
        = 0) :=
  ⟨(c6_cache_get_behavior exDl exWorldOk "u").2.2.1 "DATA".toList
      (by decide) (by decide),
    (c6_cache_get_behavior exDl exWorldOk "u").2.2.2 "DATA".toList 2000
      (by decide) (by decide) (by decide)⟩

/-- C3 counterexample: `"1.1.2000"` is not in `DD.MM.YYYY` dotted form yet
the parser accepts it, and reformatting the parsed date yields
`"01.01.2000"`, not the original string — both halves of the claim fail. -/
theorem c3_counterexample :
    parseDate "1.1.2000".toList = some ⟨2000, 1, 1⟩ ∧
    formatDate ⟨2000, 1, 1⟩ = "01.01.2000".toList ∧
    "01.01.2000".toList ≠ "1.1.2000".toList := by
  decide

/-- C3 (amended): on accepted inputs that are in canonical zero-padded
`DD.MM.YYYY` form — two digit-day, two-digit month, four-digit unsigned
year — reformatting the parsed date reproduces the original string
exactly; the parser additionally accepts non-padded and signed-year
variants, which reformat to this canonical form instead. -/
theorem c3_canonical_roundtrip
    (a b c d e f g h : Char) (t : SDate)
    (ha : isDigitC a = true) (hb : isDigitC b = true)
    (hc : isDigitC c = true) (hd : isDigitC d = true)
    (he : isDigitC e = true) (hf : isDigitC f = true)
    (hg : isDigitC g = true) (hh : isDigitC h = true)
    (hp : parseDate [a, b, '.', c, d, '.', e, f, g, h] = some t) :
    formatDate t = [a, b, '.', c, d, '.', e, f, g, h] := by
  simp only [parseDate, Option.bind_eq_bind] at hp
  simp only [List.dropWhile_cons, isWs_eq_false_of_digit ha,
    isWs_eq_false_of_digit hc, isWs_eq_false_of_digit he,
    Bool.false_eq_true, if_false, scanNumber, scanDigits, ha, hb, hc, hd,
    he, hf, hg, hh, if_true, expectDot, Option.some_bind, reduceIte,
    scanYear, digit_ne_dash he, digit_ne_plus he, Option.map_some',
    List.isEmpty_nil, if_pos] at hp
  rw [fromYmd] at hp
  split at hp
  case isFalse => exact absurd hp (by simp)
  case isTrue hcond =>
    obtain rfl : t =
        ⟨(10 * (10 * (10 * dVal e + dVal f) + dVal g) + dVal h : Nat),
          10 * dVal c + dVal d, 10 * dVal a + dVal b⟩ :=
      (Option.some_inj.mp hp).symm
    have hy : 10 * (10 * (10 * dVal e + dVal f) + dVal g) + dVal h =
        1000 * dVal e + 100 * dVal f + 10 * dVal g + dVal h := by ring
    have h9999 : 1000 * dVal e + 100 * dVal f + 10 * dVal g + dVal h ≤ 9999 := by
      have := dVal_le_9 he
      have := dVal_le_9 hf
      have := dVal_le_9 hg
      have := dVal_le_9 hh
      omega
    simp only [formatDate, hy]
    rw [fmt2_two_digits (dVal_le_9 ha) (dVal_le_9 hb),
      fmt2_two_digits (dVal_le_9 hc) (dVal_le_9 hd),
      formatYear_small h9999,
      fmt4_four_digits (dVal_le_9 he) (dVal_le_9 hf) (dVal_le_9 hg)
        (dVal_le_9 hh),
      dChar_dVal ha, dChar_dVal hb, dChar_dVal hc, dChar_dVal hd,
      dChar_dVal he, dChar_dVal hf, dChar_dVal hg, dChar_dVal hh]
    rfl

/-- C3 witness: the amended round-trip applied to the canonical string
`"01.01.2000"`. -/
theorem c3_witness : formatDate ⟨2000, 1, 1⟩ = "01.01.2000".toList := by
  have hw := c3_canonical_roundtrip '0' '1' '0' '1' '2' '0' '0' '0'
    ⟨2000, 1, 1⟩ (by decide) (by decide) (by decide) (by decide) (by decide)
    (by decide) (by decide) (by decide) (by decide)
  simpa using hw

end Swissdata

